import Mathlib

/-!
Verification of the segmentation and gallery-assembly logic of
`mpltools/sphinx/plot2rst.py`.

The Python source is shallowly embedded: every definition below mirrors one
function (or one contiguous statement sequence) of the source file, at the
level of abstraction where file-system and interpreter effects are inputs.

Tokenizer model.  `get_block_edges` in the source iterates over
`tokenize.generate_tokens`, keeping the `(srow, erow)` line spans of STRING
tokens that start at column 0, and finally reads the loop variable `erow`,
which after the loop holds the end row of the ENDMARKER token.  In CPython's
tokenizer the ENDMARKER ends at row `n + 1` where `n` is the number of
physical lines of the file, a column-0 STRING token satisfies
`1 ≤ srow ≤ erow ≤ n`, and the spans of successive column-0 STRING tokens are
separated (`erow + 1 ≤ srow'` for the next span, because a string token never
ends at column 0, so the next column-0 string starts on a later line).  The
embedding therefore takes the list of column-0 STRING spans and the ENDMARKER
row as inputs, and the theorems that quantify over files state these
tokenizer guarantees as hypotheses (`spans_ordered`).

Python string semantics used by the source (`str.startswith`, `in`,
`str.replace`, `str.strip`, `str.rstrip`, slicing with negative indices) are
embedded as executable functions on `List Char` / `String`, faithful to
CPython semantics at the call sites that occur in the source.
-/

namespace Plot2RST

/-- Python `pre.isspace()` membership for one character: the six ASCII
whitespace characters recognised by `str.strip()` / `str.rstrip()` with no
argument. -/
def pyIsSpace (c : Char) : Bool :=
  c == ' ' || c == '\t' || c == '\n' || c == '\r' || c == '\x0b' || c == '\x0c'

/-- Python `s.startswith(pre)`. -/
def startswith (s pre : String) : Bool :=
  pre.data.isPrefixOf s.data

/-- Python `sub in s` (contiguous substring containment), on char lists. -/
def list_isInfixOf (pat : List Char) : List Char → Bool
  | [] => pat.isEmpty
  | c :: cs => pat.isPrefixOf (c :: cs) || list_isInfixOf pat cs

/-- Python `sub in s` on strings. -/
def pyIn (sub s : String) : Bool :=
  list_isInfixOf sub.data s.data

/-- Worker for `pyReplace`: fuel-indexed so that it is structurally recursive
and kernel-reducible.  With `fuel = s.length` it implements Python's
left-to-right non-overlapping `str.replace` for a nonempty pattern. -/
def pyReplaceGo (pat rep : List Char) : Nat → List Char → List Char
  | 0, s => s
  | _ + 1, [] => []
  | fuel + 1, c :: cs =>
    if pat.isPrefixOf (c :: cs) then
      rep ++ pyReplaceGo pat rep fuel (List.drop (pat.length - 1) cs)
    else
      c :: pyReplaceGo pat rep fuel cs

/-- Python `s.replace(pat, rep)` on char lists (CPython replaces all
non-overlapping occurrences left to right; with an empty pattern it inserts
`rep` at every position). -/
def pyReplace (s pat rep : List Char) : List Char :=
  if pat.isEmpty then rep ++ s.flatMap (fun c => c :: rep)
  else pyReplaceGo pat rep s.length s

/-- Python `s.replace(pat, rep)` on strings. -/
def pyReplaceS (s pat rep : String) : String :=
  ⟨pyReplace s.data pat.data rep.data⟩

/-- Python `s.rstrip()` (no argument: strips trailing ASCII whitespace). -/
def pyRstrip (s : List Char) : List Char :=
  (s.reverse.dropWhile pyIsSpace).reverse

/-- The maximal run of trailing whitespace of `s` (so that
`s = pyRstrip s ++ trailingWS s`). -/
def trailingWS (s : List Char) : List Char :=
  (s.reverse.takeWhile pyIsSpace).reverse

/-- Python `s.strip(chars)`: remove from both ends every character that is a
member of the set `chars`. -/
def pyStripChars (chars s : List Char) : List Char :=
  (((s.dropWhile (fun c => chars.contains c)).reverse.dropWhile
      (fun c => chars.contains c))).reverse

/-- Python `s.strip()` (no argument: strips ASCII whitespace at both ends). -/
def pyStripWS (s : List Char) : List Char :=
  ((s.dropWhile pyIsSpace).reverse.dropWhile pyIsSpace).reverse

/-- Python `s.lstrip(chars)`. -/
def pyLstripChars (chars s : List Char) : List Char :=
  s.dropWhile (fun c => chars.contains c)

/-- Python `s[i:]` — slice from index `i` to the end, with CPython's
handling of negative and out-of-range indices. -/
def pySliceFrom (s : List Char) (i : Int) : List Char :=
  if i < 0 then s.drop ((s.length : Int) + i).toNat
  else s.drop i.toNat

end Plot2RST

namespace Plot2RST

/-- One element of the list returned by `split_code_and_text`: the source
builds tuples `(label, (start, end), content)` with `label` one of
`'text'` / `'code'`. -/
structure Block where
  label : String
  start_line : Nat
  end_line : Nat
  content : String
deriving DecidableEq

/-- The source's `np.arange(a, b, 2)` (the only call shape used): the
arithmetic progression `a, a+2, …` strictly below `b`. -/
def np_arange2 (a b : Nat) : List Nat :=
  (List.range ((b - a + 1) / 2)).map (fun k => a + 2 * k)

/-- Embedding of `get_block_edges` (plot2rst.py lines 372–398).  Inputs are
the tokenizer observations (see the module header): `spans` is the list of
`(srow, erow)` line spans of column-0 STRING tokens in token order, and
`erow` is the final value of the loop variable of the same name, i.e. the end
row of the ENDMARKER token.  `none` models the uncaught `IndexError` that
`block_edges[0]` raises when the file has no column-0 string literal. -/
def get_block_edges (spans : List (Nat × Nat)) (erow : Nat) :
    Option (List Nat × Nat) :=
  match spans.flatMap (fun s => [s.1, s.2 + 1]) with
  | [] => none
  | e0 :: rest =>
    let be := e0 :: rest
    let p : List Nat × Nat := if e0 = 1 then (be, 0) else (1 :: be, 1)
    let edges := if p.1.getLastD 0 = erow then p.1 else p.1 ++ [erow]
    some (edges, p.2)

/-- Body of the loop of `split_code_and_text`: build one block from the
enumeration index `i` and the slice range `(start, end)`.  The content is
`''.join(source_lines[start-1:end-1])`. -/
def block_of (source_lines : List String) (idx_text_block : List Nat)
    (i : Nat) (se : Nat × Nat) : Block :=
  { label := if idx_text_block.contains i then "text" else "code"
    start_line := se.1
    end_line := se.2
    content :=
      String.join (((source_lines.drop (se.1 - 1)).take
        ((se.2 - 1) - (se.1 - 1)))) }

/-- Embedding of `split_code_and_text` (plot2rst.py lines 346–369).
`source_lines` is the result of `f.readlines()` (each physical line with its
terminating newline, except possibly the last); `spans` and `erow` are the
tokenizer observations passed through to `get_block_edges`. -/
def split_code_and_text (source_lines : List String)
    (spans : List (Nat × Nat)) (erow : Nat) : Option (List Block) :=
  (get_block_edges spans erow).map (fun pr =>
    let idx_text_block := np_arange2 pr.2 pr.1.length
    let slice_ranges := pr.1.zip pr.1.tail
    slice_ranges.enum.map (fun ise =>
      block_of source_lines idx_text_block ise.1 ise.2))

/-- The tokenizer guarantees for the column-0 STRING spans of a file of `n`
physical lines, starting from a lower bound `lo` for the next admissible
start row: each span satisfies `lo ≤ srow ≤ erow ≤ n`, and later spans start
strictly after the previous span's end row. -/
def spans_ordered (lo : Nat) (spans : List (Nat × Nat)) (n : Nat) : Bool :=
  match spans with
  | [] => true
  | (s, e) :: rest =>
    decide (lo ≤ s) && decide (s ≤ e) && decide (e ≤ n) &&
      spans_ordered (e + 1) rest n

/-- Runtime errors of the embedded program: `indexError` models the
`IndexError` raised by indexing an empty list (`block_edges[0]`,
`first_text_block = [...][0]`); `execError` models an exception raised by
executed example code, carrying the interpreter's diagnostic text. -/
inductive PyError where
  | indexError : PyError
  | execError : String → PyError
deriving DecidableEq

/-- The interpreter diagnostic printed by `traceback.print_exc()` for an
error value. -/
def traceback_text : PyError → String
  | .indexError => "IndexError: list index out of range"
  | .execError msg => msg

/-- The spec's FigureRecord: the sequence number passed to the image-path
format string, paired with the resulting saved file name.  In the source the
number is the local `fig_num` (in `process_blocks`) or the figure manager's
`m.num` (in `save_all_figures`), and the name is
`image_fmt_str.format(<number>)`. -/
structure FigureRecord where
  num : Nat
  name : String
deriving DecidableEq

/-- Embedding of `codestr2rst` (plot2rst.py lines 457–461). -/
def codestr2rst (codestr : String) : String :=
  ".. code-block:: python\n\n" ++ ("\t" ++ pyReplaceS codestr "\n" "\n\t")

/-- Embedding of `docstr2rst` (plot2rst.py lines 464–473).  Python raises
`IndexError` when the argument has fewer than 2 characters; the embedding
totalises those reads with `List.getD`, and no theorem below depends on
inputs shorter than 2 characters. -/
def docstr2rst (docstr : String) : String :=
  let l := docstr.data
  let quotes : List Char :=
    if l.getD 1 ' ' == l.getD 0 ' ' then l.take 3 else l.take 1
  let stripped := pyRstrip l
  let idx_whitespace : Int := (stripped.length : Int) - (l.length : Int)
  let whitespace := pySliceFrom l idx_whitespace
  ⟨pyStripChars quotes stripped ++ whitespace⟩

/-- Embedding of the `for i, (blabel, brange, bcontent) in enumerate(blocks)`
loop of `process_blocks` (plot2rst.py lines 441–453).  The interpreter's
`exec(bcontent, example_globals)` is the injected capability `run` acting on
the abstract globals state `g`; an exception raised by `exec` is an
`Except.error`, which — as in the source, where no handler surrounds the
`exec` — aborts the whole computation.  The loop threads the enumeration
index `i`, the globals, and `fig_num`, and returns the accumulated
`figure_list` and `rst_blocks` in order. -/
def process_blocks_loop {G : Type} (run : String → G → Except PyError G)
    (inline_tag : String) (image_fmt : Nat → String)
    (idx_inline_plot : List Nat) :
    List Block → Nat → G → Nat →
      Except PyError (List FigureRecord × List String)
  | [], _, _, _ => .ok ([], [])
  | b :: rest, i, g, fig_num =>
    if b.label == "code" then
      match run b.content g with
      | .error e => .error e
      | .ok g1 =>
        match process_blocks_loop run inline_tag image_fmt idx_inline_plot
            rest (i + 1) g1 fig_num with
        | .error e => .error e
        | .ok (figs, rsts) => .ok (figs, codestr2rst b.content :: rsts)
    else
      if idx_inline_plot.contains i then
        let figure_name := image_fmt fig_num
        let figure_link := "images/" ++ figure_name
        let bcontent := pyReplaceS b.content inline_tag figure_link
        match process_blocks_loop run inline_tag image_fmt idx_inline_plot
            rest (i + 1) g (fig_num + 1) with
        | .error e => .error e
        | .ok (figs, rsts) =>
          .ok (⟨fig_num, figure_name⟩ :: figs, docstr2rst bcontent :: rsts)
      else
        match process_blocks_loop run inline_tag image_fmt idx_inline_plot
            rest (i + 1) g fig_num with
        | .error e => .error e
        | .ok (figs, rsts) => .ok (figs, docstr2rst b.content :: rsts)

/-- Embedding of `process_blocks` (plot2rst.py lines 401–454).  `src_name`
is the base name component of `src_path`; `image_fmt` models
`image_fmt_str.format` (and `image_path.format`, whose result is only used
for the save side effect); `g0` models the fresh empty `example_globals`
dict.  The matplotlib reset calls are pure side effects with no observable
value and are not represented.  Returns the figure records and
`'\n'.join(rst_blocks)`. -/
def process_blocks {G : Type} (run : String → G → Except PyError G) (g0 : G)
    (blocks : List Block) (src_name : String) (image_fmt : Nat → String)
    (inline_tag : String) : Except PyError (List FigureRecord × String) :=
  if !(startswith src_name "plot") then .ok ([], "")
  else
    let idx_inline_plot :=
      ((blocks.enum.filter (fun ib => pyIn inline_tag ib.2.content)).map
        Prod.fst)
    match process_blocks_loop run inline_tag image_fmt idx_inline_plot
        blocks 0 g0 1 with
    | .error e => .error e
    | .ok (figure_list, rst_blocks) =>
      .ok (figure_list, String.intercalate "\n" rst_blocks)

/-- Embedding of `plots_are_current` (plot2rst.py lines 335–339).  The
file-system observations are inputs: whether `image_path.format(1)` exists,
and the two modification times (modelled as integers; only their order
matters). -/
def plots_are_current (fig_exists : Bool) (fig_mtime src_mtime : Int) :
    Bool :=
  let needs_replot := !fig_exists || decide (fig_mtime ≤ src_mtime)
  !needs_replot

/-- The `needs_replot` condition recomputed inside `save_plot`
(plot2rst.py lines 500–501), textually identical to the one in
`plots_are_current`. -/
def save_plot_needs_replot (fig_exists : Bool) (fig_mtime src_mtime : Int) :
    Bool :=
  !fig_exists || decide (fig_mtime ≤ src_mtime)

/-- A line of 80 underscores, `80*'_'` in the source's log statements. -/
def underscores80 : String :=
  "________________________________________________________________________________"

/-- Embedding of `exec_source_in_dir` (plot2rst.py lines 517–530).  The
outcome of `execfile(source_file, {})` is the input `run_result`.  The bare
`except:` catches every exception and prints a diagnostic, so the function
always returns normally; its observable behaviour is the list of printed
lines, which is what the embedding returns. -/
def exec_source_in_dir (source_file : String)
    (run_result : Except PyError Unit) : List String :=
  match run_result with
  | .ok _ => []
  | .error e =>
    [underscores80, source_file ++ " is not compiling:", traceback_text e,
      underscores80]

/-- Embedding of `save_all_figures` (plot2rst.py lines 533–550).  `registry`
is `[m.num for m in matplotlib._pylab_helpers.Gcf.get_all_fig_managers()]`,
the numeric handles of the figures left open by the executed example, in
manager order; each is saved under `image_fmt_str.format(fig_num)`. -/
def save_all_figures (registry : List Nat) (image_fmt : Nat → String) :
    List FigureRecord :=
  registry.map (fun fig_num => ⟨fig_num, image_fmt fig_num⟩)

/-- Embedding of `save_plot` (plot2rst.py lines 476–514).  File-system and
interpreter observations are inputs: `fig1_exists`/`fig_mtime`/`src_mtime`
feed `needs_replot`; `file_run_result` is the outcome of
`execfile(source_file)` inside `exec_source_in_dir`; `registry` is the open
figure registry after that execution; `glob_names` are the file names
(already relative to the image directory) matched by
`glob.glob(image_path.format('[1-9]'))` in the fresh branch.  Returns the
figure file names (as in the source, whose `figure_list` holds names) and
the printed log lines; in the replot branch the names are those of the
records produced by `save_all_figures`. -/
def save_plot (src_name : String) (image_fmt : Nat → String)
    (fig1_exists : Bool) (fig_mtime src_mtime : Int)
    (file_run_result : Except PyError Unit) (registry : List Nat)
    (glob_names : List String) : List String × List String :=
  if !(startswith src_name "plot") then ([], [])
  else if save_plot_needs_replot fig1_exists fig_mtime src_mtime then
    ((save_all_figures registry image_fmt).map (fun r => r.name),
      ("plotting " ++ src_name) ::
        exec_source_in_dir src_name file_run_result)
  else
    (glob_names, [])

/-- The module-level `tutorial_rst_template` (plot2rst.py lines 61–66) with
its two `%`-slots substituted. -/
def tutorial_rst_tmpl (short_filename rst : String) : String :=
  "\n.. _example_" ++ short_filename ++ ":\n\n" ++ rst ++ "\n\n"

/-- The module-level `plot_rst_template` (plot2rst.py lines 49–59) with its
five `%`-slots substituted (`end_row` is rendered in decimal, as `%s` does
for an `int`). -/
def plot_rst_tmpl (short_filename docstring image_list src_name : String)
    (end_row : Nat) : String :=
  "\n.. _example_" ++ short_filename ++ ":\n\n" ++ docstring ++ "\n\n" ++
    image_list ++ "\n\n.. literalinclude:: " ++ src_name ++
    "\n    :lines: " ++ toString end_row ++ "-\n\n"

/-- The module-level `CODE_LINK` (plot2rst.py lines 68–73) with its slot
substituted. -/
def code_link (src_name : String) : String :=
  "\n\n**Python source code:** :download:`download <" ++ src_name ++
    ">`\n(generated using ``mpltools`` |version|)\n\n"

/-- The module-level `IMAGE_TEMPLATE` (plot2rst.py lines 92–96) with its
slot substituted. -/
def image_tmpl (figure_file : String) : String :=
  "\n.. image:: images/" ++ figure_file ++ "\n    :align: center\n\n"

/-- The observable result of generating one example page: the figure file
names returned to the caller, the final `example_rst` text, and the log
lines printed along the way. -/
structure PageResult where
  figure_list : List String
  example_rst : String
  log : List String
deriving DecidableEq

/-- Embedding of `rst_file_from_example` lines 300–316: the part of the
function that runs after the shebang filter, from the `has_inline_plots`
test to `example_rst += CODE_LINK.format(src_name)`.  The inputs after
`src_name`/`short_filename` are the file-system and interpreter
observations threaded to `process_blocks` and `save_plot` (see those
definitions).  Errors raised by `process_blocks` (which has no handler) and
by indexing an empty `[b for b in blocks if b[0] == 'text']` propagate. -/
def page_from_blocks {G : Type} (run : String → G → Except PyError G)
    (g0 : G) (plot_tag : String) (image_fmt : Nat → String)
    (src_name short_filename : String) (fig1_exists : Bool)
    (fig_mtime src_mtime : Int) (file_run_result : Except PyError Unit)
    (registry : List Nat) (glob_names : List String) (blocks : List Block) :
    Except PyError PageResult :=
  let has_inline_plots := blocks.any (fun b => pyIn plot_tag b.content)
  if has_inline_plots then
    match process_blocks run g0 blocks src_name image_fmt plot_tag with
    | .error e => .error e
    | .ok (figure_list, rst) =>
      .ok { figure_list := figure_list.map (fun r => r.name)
            example_rst :=
              tutorial_rst_tmpl short_filename rst ++ code_link src_name
            log := [] }
  else
    match blocks.filter (fun b => b.label == "text") with
    | [] => .error .indexError
    | first_text_block :: _ =>
      let docstring : String :=
        ⟨pyStripChars ['"'] (pyStripWS first_text_block.content.data)⟩
      let end_row := first_text_block.end_line + 1
      let sp := save_plot src_name image_fmt fig1_exists fig_mtime src_mtime
        file_run_result registry glob_names
      let image_list :=
        String.join (sp.1.map (fun f => image_tmpl ⟨pyLstripChars ['/'] f.data⟩))
      .ok { figure_list := sp.1
            example_rst :=
              plot_rst_tmpl short_filename docstring image_list src_name
                end_row ++ code_link src_name
            log := sp.2 }

/-- Embedding of lines 318–332 of `rst_file_from_example`, the part that
runs after `example_rst` is assembled: the page text is written out
(lines 318–320), and the thumbnail block then unconditionally reads
`figure_list[0]` (line 323), which raises an uncaught `IndexError` when
the figure list is empty.  The remaining thumbnail operations
(lines 323–332) are guarded file-system side effects
(`if first_image_file.exists`, `image.thumbnail`, `if not
thumb_path.exists`, a warning print, an optional default-thumbnail copy)
that produce no value consumed by the caller and raise nothing else in
the model's observation. -/
def finish_page (page : PageResult) : Except PyError (Option PageResult) :=
  match page.figure_list with
  | [] => .error .indexError
  | _ :: _ => .ok (some page)

/-- Embedding of `rst_file_from_example` (plot2rst.py lines 255–332) for one
example file, at block level: the freshness short-circuit (line 293), the
call to `split_code_and_text` (line 296, where a file with no column-0
string literal raises an uncaught `IndexError`), the shebang filter
(lines 297–298), the page assembly (`page_from_blocks`, lines 300–316), and
the page write plus thumbnail block (`finish_page`, lines 318–332, whose
unconditional `figure_list[0]` at line 323 raises an uncaught `IndexError`
when no figure was produced).  `rst_exists` is `rst_path.exists`; a
`.ok none` result models the early `return` that reuses the existing
page. -/
def rst_file_from_example {G : Type} (run : String → G → Except PyError G)
    (g0 : G) (plot_tag : String) (image_fmt : Nat → String)
    (src_name short_filename : String) (fig1_exists : Bool)
    (fig_mtime src_mtime : Int) (rst_exists : Bool)
    (file_run_result : Except PyError Unit) (registry : List Nat)
    (glob_names : List String) (source_lines : List String)
    (spans : List (Nat × Nat)) : Except PyError (Option PageResult) :=
  if plots_are_current fig1_exists fig_mtime src_mtime && rst_exists then
    .ok none
  else
    match split_code_and_text source_lines spans (source_lines.length + 1)
        with
    | none => .error .indexError
    | some blocks0 =>
      let blocks :=
        match blocks0 with
        | [] => blocks0
        | b :: bs => if startswith b.content "#!" then bs else blocks0
      match page_from_blocks run g0 plot_tag image_fmt src_name
          short_filename fig1_exists fig_mtime src_mtime file_run_result
          registry glob_names blocks with
      | .error e => .error e
      | .ok page => finish_page page

/-- Embedding of the per-example loop of `write_gallery` (plot2rst.py
lines 232–244): each example is processed by `rst_file_from_example` in
order, with no exception handler around the call, so an error raised for
one example aborts the loop — and with it the whole gallery build, since
`write_gallery` and `generate_rst_gallery` have no handlers either. -/
def write_gallery_loop {α β : Type} (process1 : α → Except PyError β) :
    List α → Except PyError (List β)
  | [] => .ok []
  | f :: fs =>
    match process1 f with
    | .error e => .error e
    | .ok r =>
      match write_gallery_loop process1 fs with
      | .error e => .error e
      | .ok rs => .ok (r :: rs)

/-! ### Helper lemmas -/

theorem np_arange2_mem (a b k : Nat) :
    k ∈ np_arange2 a b ↔ a ≤ k ∧ k < b ∧ (k - a) % 2 = 0 := by
  simp only [np_arange2, List.mem_map, List.mem_range]
  constructor
  · rintro ⟨j, hj, rfl⟩
    omega
  · rintro ⟨h1, h2, h3⟩
    exact ⟨(k - a) / 2, by omega, by omega⟩

theorem np_arange2_contains (a b k : Nat) :
    (np_arange2 a b).contains k =
      (decide (a ≤ k) && decide (k < b) && decide ((k - a) % 2 = 0)) := by
  have h : (np_arange2 a b).contains k = decide (k ∈ np_arange2 a b) := by
    simp
  rw [h]
  rw [Bool.eq_iff_iff]
  simp only [np_arange2_mem, decide_eq_true_eq, Bool.and_eq_true]
  tauto

theorem arange2_flip (a b i : Nat) (ha : a ≤ 1) (hib : i + 1 < b) :
    ¬ ((np_arange2 a b).contains i = (np_arange2 a b).contains (i + 1)) := by
  rw [np_arange2_contains, np_arange2_contains, Bool.eq_iff_iff]
  simp only [Bool.and_eq_true, decide_eq_true_eq]
  omega

theorem block_of_label (source_lines : List String) (lst : List Nat)
    (i : Nat) (se : Nat × Nat) :
    (block_of source_lines lst i se).label =
      if lst.contains i then "text" else "code" := rfl

theorem chain_blocks (source_lines : List String) (a b : Nat) (ha : a ≤ 1) :
    ∀ (rs : List (Nat × Nat)) (i : Nat), i + rs.length ≤ b →
      List.Chain' (fun x y => x.label ≠ y.label)
        ((List.enumFrom i rs).map
          (fun p => block_of source_lines (np_arange2 a b) p.1 p.2)) := by
  intro rs
  induction rs with
  | nil => intro i h; simp [List.enumFrom]
  | cons r rs ih =>
    intro i h
    cases rs with
    | nil => simp [List.enumFrom]
    | cons r1 rs1 =>
      rw [List.enumFrom, List.enumFrom, List.map_cons, List.map_cons]
      rw [List.chain'_cons]
      constructor
      · rw [block_of_label, block_of_label]
        have hflip := arange2_flip a b i ha (by
          simp only [List.length_cons] at h; omega)
        rcases h0 : (np_arange2 a b).contains i with _ | _ <;>
          rcases h1 : (np_arange2 a b).contains (i + 1) with _ | _ <;>
          simp_all
      · have := ih (i + 1) (by simp only [List.length_cons] at h ⊢; omega)
        rw [List.enumFrom, List.map_cons] at this
        exact this

theorem get_block_edges_shape (spans : List (Nat × Nat)) (erow : Nat)
    (pr : List Nat × Nat) (h : get_block_edges spans erow = some pr) :
    pr.2 ≤ 1 := by
  unfold get_block_edges at h
  cases hfm : spans.flatMap (fun s => [s.1, s.2 + 1]) with
  | nil => rw [hfm] at h; simp at h
  | cons e0 rest =>
    rw [hfm] at h
    simp only [Option.some.injEq] at h
    by_cases he : e0 = 1
    · simp only [he, if_true] at h
      rw [← h]
      simp
    · simp only [he, if_false] at h
      rw [← h]

/-- Claim C5: for every BlockSequence produced by the Segmenter, no two
adjacent blocks share the same `kind` (`"text"` / `"code"`); kinds strictly
alternate.  The labels are assigned by membership of the block index in
`np.arange(idx_first_text_block, len(block_edges), 2)` with
`idx_first_text_block ∈ {0, 1}`, which alternates with the index. -/
theorem c5_alternation (source_lines : List String)
    (spans : List (Nat × Nat)) (erow : Nat) (blocks : List Block)
    (h : split_code_and_text source_lines spans erow = some blocks) :
    List.Chain' (fun x y => x.label ≠ y.label) blocks := by
  unfold split_code_and_text at h
  cases hg : get_block_edges spans erow with
  | none => rw [hg] at h; simp at h
  | some pr =>
    have hidx := get_block_edges_shape spans erow pr hg
    rw [hg] at h
    simp only [Option.map_some', Option.some.injEq] at h
    rw [← h]
    have hlen : (pr.1.zip pr.1.tail).length ≤ pr.1.length := by
      rw [List.length_zip]
      exact min_le_left _ _
    have := chain_blocks source_lines pr.2 pr.1.length hidx
      (pr.1.zip pr.1.tail) 0 (by omega)
    simpa [List.enum] using this

/-- Witness for C5 at a concrete accepted input: the two-line code-first
file `x = 1\n"""doc"""\n`, whose blocks are code then text. -/
theorem c5_alternation_witness :
    List.Chain' (fun x y => x.label ≠ y.label)
      [Block.mk "code" 1 2 "x = 1\n", Block.mk "text" 2 3 "\"\"\"doc\"\"\"\n"] :=
  c5_alternation ["x = 1\n", "\"\"\"doc\"\"\"\n"] [(2, 2)] 3 _ (by decide)

theorem string_foldl_append (l : List String) :
    ∀ s : String, l.foldl (· ++ ·) s = s ++ l.foldl (· ++ ·) "" := by
  induction l with
  | nil => intro s; simp [List.foldl]
  | cons x l ih =>
    intro s
    rw [List.foldl_cons, List.foldl_cons, ih (s ++ x), ih ("" ++ x)]
    rw [String.append_assoc]
    congr 1

theorem string_join_append (xs ys : List String) :
    String.join (xs ++ ys) = String.join xs ++ String.join ys := by
  show (xs ++ ys).foldl (· ++ ·) "" = _
  rw [List.foldl_append, string_foldl_append ys]
  rfl

theorem string_join_flatten (L : List (List String)) :
    String.join (L.map String.join) = String.join L.flatten := by
  induction L with
  | nil => rfl
  | cons x L ih =>
    rw [List.map_cons, List.flatten_cons]
    rw [show String.join (String.join x :: L.map String.join) =
      String.join ([String.join x] ++ L.map String.join) from rfl]
    rw [string_join_append, string_join_append, ih]
    congr 1

/-- The content line-slice of one block with range `(start, end)`:
`source_lines[start-1:end-1]`. -/
def block_slice (source_lines : List String) (se : Nat × Nat) :
    List String :=
  (source_lines.drop (se.1 - 1)).take ((se.2 - 1) - (se.1 - 1))

theorem chain_le_getLastD :
    ∀ (es : List Nat) (a : Nat), List.Chain' (· ≤ ·) (a :: es) →
      a ≤ (a :: es).getLastD 0 := by
  intro es
  induction es with
  | nil => intro a _; simp
  | cons c es ih =>
    intro a h
    rw [List.chain'_cons] at h
    have := ih c h.2
    simp only [List.getLastD_cons] at this ⊢
    omega

theorem chain_append_singleton :
    ∀ (es : List Nat) (a b : Nat), List.Chain' (· ≤ ·) (a :: es) →
      (∀ x ∈ a :: es, x ≤ b) → List.Chain' (· ≤ ·) ((a :: es) ++ [b]) := by
  intro es
  induction es with
  | nil =>
    intro a b _ hb
    simp only [List.nil_append, List.cons_append]
    exact List.chain'_cons.mpr ⟨hb a (by simp), List.chain'_singleton b⟩
  | cons c es ih =>
    intro a b h hb
    rw [List.chain'_cons] at h
    rw [List.cons_append]
    refine List.chain'_cons.mpr ⟨h.1, ?_⟩
    exact ih c b h.2 (fun x hx => hb x (by simp at hx ⊢; tauto))

theorem slices_flatten_eq (source_lines : List String) :
    ∀ (es : List Nat) (a : Nat), List.Chain' (· ≤ ·) (a :: es) → 1 ≤ a →
      (((a :: es).zip es).map (block_slice source_lines)).flatten =
        (source_lines.drop (a - 1)).take ((a :: es).getLastD 0 - a) := by
  intro es
  induction es with
  | nil =>
    intro a _ _
    simp [List.zip]
  | cons c es ih =>
    intro a h ha
    rw [List.chain'_cons] at h
    have hac : a ≤ c := h.1
    have hcb : c ≤ (c :: es).getLastD 0 := chain_le_getLastD es c h.2
    have hone : (1 : Nat) ≤ c := le_trans ha hac
    rw [List.zip_cons_cons, List.map_cons, List.flatten_cons, ih c h.2 hone]
    simp only [List.getLastD_cons] at hcb ⊢
    have hbs : block_slice source_lines (a, c) =
        (source_lines.drop (a - 1)).take (c - a) := by
      show (source_lines.drop (a - 1)).take ((c - 1) - (a - 1)) = _
      congr 1
      omega
    rw [hbs]
    have e2 : es.getLastD c - a = (c - a) + (es.getLastD c - c) := by omega
    rw [e2, List.take_add, List.drop_drop]
    have e3 : (a - 1) + (c - a) = c - 1 := by omega
    rw [e3]

theorem spans_edges_spec (n : Nat) :
    ∀ (spans : List (Nat × Nat)) (lo : Nat),
      spans_ordered lo spans n = true →
      List.Chain' (· ≤ ·)
        (lo :: spans.flatMap (fun s => [s.1, s.2 + 1])) ∧
      ∀ x ∈ spans.flatMap (fun s => [s.1, s.2 + 1]),
        lo ≤ x ∧ x ≤ n + 1 := by
  intro spans
  induction spans with
  | nil => intro lo _; simp
  | cons sp rest ih =>
    intro lo h
    obtain ⟨s, e⟩ := sp
    unfold spans_ordered at h
    simp only [Bool.and_eq_true, decide_eq_true_eq] at h
    obtain ⟨⟨⟨hlos, hse⟩, hen⟩, hrest⟩ := h
    obtain ⟨ihc, ihb⟩ := ih (e + 1) hrest
    constructor
    · rw [List.flatMap_cons]
      simp only [List.cons_append, List.nil_append]
      refine List.chain'_cons.mpr ⟨hlos, ?_⟩
      refine List.chain'_cons.mpr ⟨by omega, ?_⟩
      exact ihc
    · intro x hx
      rw [List.flatMap_cons] at hx
      simp only [List.cons_append, List.nil_append, List.mem_cons] at hx
      rcases hx with rfl | rfl | hx
      · omega
      · omega
      · have := ihb x hx
        omega

theorem getLastD_snoc (l : List Nat) (b d : Nat) :
    (l ++ [b]).getLastD d = b := by
  rw [List.getLastD_eq_getLast?, List.getLast?_concat]
  rfl

/-- Shape of a successful `get_block_edges` run on a nonempty, ordered span
list: the returned boundary list starts at line 1, ends at the ENDMARKER
row `n + 1`, and is nondecreasing. -/
theorem get_block_edges_valid (spans : List (Nat × Nat)) (n : Nat)
    (hne : spans ≠ []) (hord : spans_ordered 1 spans n = true) :
    ∃ es idx, get_block_edges spans (n + 1) = some (1 :: es, idx) ∧
      List.Chain' (· ≤ ·) (1 :: es) ∧ (1 :: es).getLastD 0 = n + 1 := by
  obtain ⟨⟨s, e⟩, rest, rfl⟩ := List.exists_cons_of_ne_nil hne
  have hspec := spans_edges_spec n (((s, e)) :: rest) 1 hord
  obtain ⟨hchain, hbound⟩ := hspec
  rw [List.flatMap_cons] at hchain hbound
  simp only [List.cons_append, List.nil_append] at hchain hbound
  unfold get_block_edges
  rw [List.flatMap_cons]
  simp only [List.cons_append, List.nil_append]
  set tail2 := rest.flatMap (fun s => [s.1, s.2 + 1]) with htail
  by_cases hs1 : s = 1
  · -- first boundary is already line 1: no insert
    subst hs1
    simp only [if_true]
    have hch1 : List.Chain' (· ≤ ·) (1 :: (e + 1) :: tail2) :=
      (List.chain'_cons.mp hchain).2
    by_cases hlast : ((1 : Nat) :: (e + 1) :: tail2).getLastD 0 = n + 1
    · refine ⟨(e + 1) :: tail2, 0, ?_, hch1, hlast⟩
      simp only [hlast, if_true]
    · refine ⟨((e + 1) :: tail2) ++ [n + 1], 0, ?_, ?_, ?_⟩
      · simp only [hlast, if_false]
        rfl
      · have hb : ∀ x ∈ (1 : Nat) :: (e + 1) :: tail2, x ≤ n + 1 :=
          fun x hx => (hbound x hx).2
        have := chain_append_singleton ((e + 1) :: tail2) 1 (n + 1) hch1 hb
        simpa using this
      · rw [show ((1 : Nat) :: ((e + 1) :: tail2 ++ [n + 1])) =
          ((1 :: (e + 1) :: tail2) ++ [n + 1]) from rfl]
        exact getLastD_snoc _ _ _
  · -- first boundary is below line 1's boundary: insert 1, first block code
    simp only [hs1, if_false]
    by_cases hlast : ((1 : Nat) :: s :: (e + 1) :: tail2).getLastD 0 = n + 1
    · refine ⟨s :: (e + 1) :: tail2, 1, ?_, hchain, hlast⟩
      simp only at hlast ⊢
      rw [if_pos hlast]
    · refine ⟨(s :: (e + 1) :: tail2) ++ [n + 1], 1, ?_, ?_, ?_⟩
      · simp only at hlast ⊢
        rw [if_neg hlast]
        rfl
      · have hb : ∀ x ∈ (1 : Nat) :: s :: (e + 1) :: tail2, x ≤ n + 1 := by
          intro x hx
          rcases List.mem_cons.mp hx with rfl | hx
          · omega
          · exact (hbound x hx).2
        have := chain_append_singleton (s :: (e + 1) :: tail2) 1 (n + 1)
          hchain hb
        simpa using this
      · rw [show ((1 : Nat) :: (s :: (e + 1) :: tail2 ++ [n + 1])) =
          ((1 :: s :: (e + 1) :: tail2) ++ [n + 1]) from rfl]
        exact getLastD_snoc _ _ _

/-- Claim C1: the round-trip property of the Segmenter.  For every file
accepted by `get_block_edges` — the tokenization succeeds with a nonempty
list of column-0 STRING spans satisfying the tokenizer guarantees
(`spans_ordered 1 spans n`, with ENDMARKER row `n + 1`) — concatenating the
`content` fields of all blocks of `split_code_and_text`, in order,
reproduces the original file text (the concatenation of `readlines()`)
exactly, with no lines dropped, duplicated, or reordered. -/
theorem c1_round_trip (source_lines : List String)
    (spans : List (Nat × Nat)) (hne : spans ≠ [])
    (hord : spans_ordered 1 spans source_lines.length = true) :
    ∃ blocks,
      split_code_and_text source_lines spans (source_lines.length + 1) =
        some blocks ∧
      String.join (blocks.map (fun b => b.content)) =
        String.join source_lines := by
  obtain ⟨es, idx, hedges, hchain, hlast⟩ :=
    get_block_edges_valid spans source_lines.length hne hord
  unfold split_code_and_text
  rw [hedges]
  simp only [Option.map_some', Option.some.injEq]
  refine ⟨_, rfl, ?_⟩
  -- contents of the mapped blocks are the joined line slices
  have hcontents :
      (((((1 :: es).zip ((1 :: es).tail)).enum.map
        (fun ise => block_of source_lines (np_arange2 idx (1 :: es).length)
          ise.1 ise.2)).map (fun b => b.content))) =
      (((1 :: es).zip es).map
        (fun se => String.join (block_slice source_lines se))) := by
    rw [List.map_map]
    have : ((fun b => b.content) ∘
        (fun ise => block_of source_lines
          (np_arange2 idx (1 :: es).length) ise.1 ise.2)) =
        ((fun se => String.join (block_slice source_lines se)) ∘
          Prod.snd) := by
      funext ise
      rfl
    rw [this, ← List.map_map, List.enum_map_snd]
    rfl
  rw [hcontents]
  rw [show (fun se => String.join (block_slice source_lines se)) =
    (String.join ∘ block_slice source_lines) from rfl]
  rw [← List.map_map, string_join_flatten]
  rw [slices_flatten_eq source_lines es 1 hchain le_rfl, hlast]
  simp

/-- Witness for C1: the text-first file `"""T"""\nx = 1\n` (spans
`[(1, 1)]`, two lines), for which the round trip holds. -/
theorem c1_round_trip_witness :
    ∃ blocks,
      split_code_and_text ["\"\"\"T\"\"\"\n", "x = 1\n"] [(1, 1)] 3 =
        some blocks ∧
      String.join (blocks.map (fun b => b.content)) =
        String.join ["\"\"\"T\"\"\"\n", "x = 1\n"] :=
  c1_round_trip ["\"\"\"T\"\"\"\n", "x = 1\n"] [(1, 1)] (by decide)
    (by decide)

/-- Claim C9: the input file `x = 1\n"""doc"""\n` segments into a Code block
covering line 1 followed by a Text block covering line 2, with the
first-text-block index set to 1.  The tokenizer observations for this file
are: one column-0 STRING token `"""doc"""` with span `(2, 2)`, and the
ENDMARKER ending at row 3; `readlines()` yields the two physical lines.  A
boundary is synthesized at line 1 (the span list starts at 2, not 1),
marking the first block as Code. -/
theorem c9_code_first_scenario :
    get_block_edges [(2, 2)] 3 = some ([1, 2, 3], 1) ∧
    split_code_and_text ["x = 1\n", "\"\"\"doc\"\"\"\n"] [(2, 2)] 3 =
      some [Block.mk "code" 1 2 "x = 1\n",
            Block.mk "text" 2 3 "\"\"\"doc\"\"\"\n"] := by
  constructor
  · rfl
  · decide

/-- Claim C6: `plots_are_current` returns `true` exactly when the first
expected figure file exists and its modification time is strictly newer
than the source's; equivalently, the stale condition (`needs_replot`, also
recomputed verbatim inside `save_plot`) holds iff the figure file does not
exist or its modification time is not strictly newer than the source's. -/
theorem c6_freshness (fig_exists : Bool) (fig_mtime src_mtime : Int) :
    (plots_are_current fig_exists fig_mtime src_mtime = true ↔
      fig_exists = true ∧ src_mtime < fig_mtime) ∧
    (save_plot_needs_replot fig_exists fig_mtime src_mtime = true ↔
      fig_exists = false ∨ fig_mtime ≤ src_mtime) ∧
    save_plot_needs_replot fig_exists fig_mtime src_mtime =
      !plots_are_current fig_exists fig_mtime src_mtime := by
  cases fig_exists <;>
    simp [plots_are_current, save_plot_needs_replot]

/-- Claim C7: a file whose name does not begin with `plot` makes
`process_blocks` return an empty figure list and empty rendered body
immediately, and makes `save_plot` return an empty figure list.  The
conclusion holds for every executor `run`, every initial globals value, and
every block list — in particular the result never depends on the executor,
which is the formal counterpart of "executes none of its code blocks"
and "regardless of the file's content". -/
theorem c7_non_plot {G : Type} (run : String → G → Except PyError G)
    (g0 : G) (blocks : List Block) (src_name : String)
    (image_fmt : Nat → String) (inline_tag : String)
    (fig1_exists : Bool) (fig_mtime src_mtime : Int)
    (file_run_result : Except PyError Unit) (registry : List Nat)
    (glob_names : List String)
    (h : startswith src_name "plot" = false) :
    process_blocks run g0 blocks src_name image_fmt inline_tag =
      .ok ([], "") ∧
    save_plot src_name image_fmt fig1_exists fig_mtime src_mtime
      file_run_result registry glob_names = ([], []) := by
  constructor
  · simp [process_blocks, h]
  · simp [save_plot, h]

theorem enumFrom_fst_ge (q : Block → Bool) :
    ∀ (l : List Block) (m x : Nat),
      x ∈ ((List.enumFrom m l).filter (fun p => q p.2)).map Prod.fst →
      m ≤ x := by
  intro l
  induction l with
  | nil => intro m x hx; simp [List.enumFrom] at hx
  | cons a l ih =>
    intro m x hx
    rw [List.enumFrom] at hx
    rw [List.filter_cons] at hx
    by_cases hq : q a
    · simp only [hq, if_true] at hx
      rcases List.mem_map.mp hx with ⟨p, hp, rfl⟩
      rcases List.mem_cons.mp hp with rfl | hp
      · exact le_refl m
      · have := ih (m + 1) p.1 (List.mem_map_of_mem Prod.fst hp)
        omega
    · simp only [hq, if_false] at hx
      have := ih (m + 1) x hx
      omega

theorem enumFrom_filter_contains (q : Block → Bool) :
    ∀ (l : List Block) (m j : Nat) (b : Block), l.get? j = some b →
      (((List.enumFrom m l).filter (fun p => q p.2)).map
        Prod.fst).contains (m + j) = q b := by
  intro l
  induction l with
  | nil => intro m j b hb; simp at hb
  | cons a l ih =>
    intro m j b hb
    rw [List.enumFrom, List.filter_cons]
    by_cases hq : q a
    · simp only [hq, if_true, List.map_cons]
      cases j with
      | zero =>
        simp only [List.get?] at hb
        cases hb
        simp [List.contains, hq]
      | succ j =>
        simp only [List.get?] at hb
        have heq : ((m + (j + 1) == m) : Bool) = false := by
          simp only [beq_eq_false_iff_ne, ne_eq]
          omega
        show ((m + (j + 1) == m) ||
          (((List.enumFrom (m + 1) l).filter (fun p => q p.2)).map
            Prod.fst).contains (m + (j + 1))) = q b
        rw [heq, Bool.false_or,
          show m + (j + 1) = (m + 1) + j by omega]
        exact ih (m + 1) j b hb
    · rw [if_neg (show ¬ (q ((m, a) : Nat × Block).2 = true) from hq)]
      cases j with
      | zero =>
        simp only [List.get?] at hb
        cases hb
        show (((List.enumFrom (m + 1) l).filter
          (fun p => q p.2)).map Prod.fst).contains m = q a
        rw [Bool.eq_false_iff.mpr hq]
        rw [show (((List.enumFrom (m + 1) l).filter
            (fun p => q p.2)).map Prod.fst).contains m =
            decide (m ∈ ((List.enumFrom (m + 1) l).filter
              (fun p => q p.2)).map Prod.fst) from by simp]
        rw [decide_eq_false_iff_not]
        intro hmem
        have := enumFrom_fst_ge q l (m + 1) m hmem
        omega
      | succ j =>
        simp only [List.get?] at hb
        rw [show m + (j + 1) = (m + 1) + j by omega]
        exact ih (m + 1) j b hb

/-- The number of text blocks of `rest` whose content contains the inline
tag: exactly the blocks for which `process_blocks` saves a figure. -/
def marked_count (inline_tag : String) (rest : List Block) : Nat :=
  (rest.filter
    (fun b => !(b.label == "code") && pyIn inline_tag b.content)).length

theorem process_blocks_loop_figs {G : Type}
    (run : String → G → Except PyError G) (inline_tag : String)
    (image_fmt : Nat → String) (idxs : List Nat)
    (hok : ∀ c g, ∃ g2, run c g = .ok g2) :
    ∀ (rest : List Block) (i : Nat) (g : G) (n : Nat),
      (∀ j b, rest.get? j = some b →
        idxs.contains (i + j) = pyIn inline_tag b.content) →
      ∃ figs rsts,
        process_blocks_loop run inline_tag image_fmt idxs rest i g n =
          .ok (figs, rsts) ∧
        figs.map (fun r => r.num) =
          List.range' n (marked_count inline_tag rest) ∧
        figs.map (fun r => r.name) =
          (List.range' n (marked_count inline_tag rest)).map image_fmt := by
  intro rest
  induction rest with
  | nil =>
    intro i g n _
    exact ⟨[], [], rfl, rfl, rfl⟩
  | cons b rest ih =>
    intro i g n hidx
    have hidx1 : ∀ j b1, rest.get? j = some b1 →
        idxs.contains ((i + 1) + j) = pyIn inline_tag b1.content := by
      intro j b1 hj
      rw [show (i + 1) + j = i + (j + 1) by omega]
      exact hidx (j + 1) b1 hj
    by_cases hlab : (b.label == "code") = true
    · obtain ⟨g2, hg2⟩ := hok b.content g
      obtain ⟨figs, rsts, hloop, hnum, hname⟩ := ih (i + 1) g2 n hidx1
      refine ⟨figs, codestr2rst b.content :: rsts, ?_, ?_, ?_⟩
      · rw [process_blocks_loop, if_pos hlab]
        simp only [hg2, hloop]
      · rw [marked_count, List.filter_cons]
        simp only [hlab, Bool.not_true, Bool.false_and,
          Bool.false_eq_true, if_false]
        rw [← marked_count]
        exact hnum
      · rw [marked_count, List.filter_cons]
        simp only [hlab, Bool.not_true, Bool.false_and,
          Bool.false_eq_true, if_false]
        rw [← marked_count]
        exact hname
    · have hlab0 : (b.label == "code") = false := Bool.eq_false_iff.mpr hlab
      have hcon : idxs.contains i = pyIn inline_tag b.content := by
        have := hidx 0 b rfl
        rwa [Nat.add_zero] at this
      by_cases hin : pyIn inline_tag b.content = true
      · obtain ⟨figs, rsts, hloop, hnum, hname⟩ := ih (i + 1) g (n + 1) hidx1
        rw [marked_count] at hnum hname
        refine ⟨⟨n, image_fmt n⟩ :: figs,
          docstr2rst (pyReplaceS b.content inline_tag
            ("images/" ++ image_fmt n)) :: rsts, ?_, ?_, ?_⟩
        · rw [process_blocks_loop, if_neg hlab, if_pos (hcon.trans hin)]
          simp only [hloop]
        · rw [marked_count, List.filter_cons]
          simp only [hlab0, hin, Bool.not_false, Bool.true_and, if_true]
          rw [List.length_cons, List.range'_succ, List.map_cons]
          rw [hnum]
        · rw [marked_count, List.filter_cons]
          simp only [hlab0, hin, Bool.not_false, Bool.true_and, if_true]
          rw [List.length_cons, List.range'_succ, List.map_cons,
            List.map_cons]
          rw [hname]
      · have hin0 : pyIn inline_tag b.content = false :=
          Bool.eq_false_iff.mpr hin
        obtain ⟨figs, rsts, hloop, hnum, hname⟩ := ih (i + 1) g n hidx1
        rw [marked_count] at hnum hname
        refine ⟨figs, docstr2rst b.content :: rsts, ?_, ?_, ?_⟩
        · rw [process_blocks_loop, if_neg hlab, if_neg ?hni]
          case hni => rw [hcon, hin0]; exact Bool.false_ne_true
          simp only [hloop]
        · rw [marked_count, List.filter_cons]
          simp only [hin0, Bool.and_false, if_false]
          exact hnum
        · rw [marked_count, List.filter_cons]
          simp only [hin0, Bool.and_false, if_false]
          exact hname

/-- Counterexample to Claim C3: the gallery-entry sweep path does not
number figures `1, 2, …`.  A `plot`-prefixed file with no inline marker
whose code executes `plt.figure(5)` (and nothing else) leaves the global
registry holding the single figure handle 5; `save_all_figures` then
produces a single FigureRecord with sequence number 5 — not a sequence
that is strictly increasing starting at 1 with no gaps (`[1]`). -/
theorem c3_counterexample :
    (save_all_figures [5]
      (fun n => "plot_demo_" ++ toString n ++ ".png")).map
        (fun r => r.num) = [5] ∧
    ([5] : List Nat) ≠ List.range' 1 1 := by
  exact ⟨rfl, by decide⟩

/-- Claim C3 as amended: in the inline-marker tutorial path
(`process_blocks`, on a `plot`-prefixed file whose code blocks all execute
without error), the figure sequence numbers are exactly `1, 2, …, k` —
strictly increasing, starting at 1, with no gaps — where `k` is the number
of marker-containing Text blocks, incremented once per such block in
document order (a Code block containing the marker triggers no save); the
saved names are the image format applied to those numbers, in the same
order.  In the gallery-entry sweep path, `save_all_figures` instead
records the numeric handles of the open figures in registry order, which
need not start at 1, be gapless, or be increasing. -/
theorem c3_amended {G : Type} (run : String → G → Except PyError G)
    (g0 : G) (blocks : List Block) (src_name : String)
    (image_fmt : Nat → String) (inline_tag : String)
    (hplot : startswith src_name "plot" = true)
    (hok : ∀ c g, ∃ g2, run c g = .ok g2) :
    (∃ figs rst,
      process_blocks run g0 blocks src_name image_fmt inline_tag =
        .ok (figs, rst) ∧
      figs.map (fun r => r.num) =
        List.range' 1 (marked_count inline_tag blocks) ∧
      figs.map (fun r => r.name) =
        (List.range' 1 (marked_count inline_tag blocks)).map image_fmt) ∧
    ∀ registry : List Nat,
      (save_all_figures registry image_fmt).map (fun r => r.num) =
        registry := by
  constructor
  · have hidx : ∀ j b, blocks.get? j = some b →
        ((blocks.enum.filter
          (fun ib => pyIn inline_tag ib.2.content)).map
            Prod.fst).contains (0 + j) =
          pyIn inline_tag b.content := by
      intro j b hj
      exact enumFrom_filter_contains
        (fun b => pyIn inline_tag b.content) blocks 0 j b hj
    obtain ⟨figs, rsts, hloop, hnum, hname⟩ :=
      process_blocks_loop_figs run inline_tag image_fmt _ hok blocks 0 g0 1
        hidx
    refine ⟨figs, String.intercalate "\n" rsts, ?_, hnum, hname⟩
    rw [process_blocks, hplot]
    simp only [Bool.not_true, Bool.false_eq_true, if_false]
    rw [hloop]
  · intro registry
    rw [save_all_figures, List.map_map]
    exact List.map_id registry

/-- Witness for C3's amended theorem: a two-block file
(marker-containing text, then code) on which the tutorial path numbers its
single figure `1`, and the sweep path reproduces an arbitrary registry. -/
theorem c3_amended_witness :
    (∃ figs rst,
      process_blocks (fun (_ : String) (g : Unit) => Except.ok g) ()
        [Block.mk "text" 1 2 "\"\"\"PLOT2RST.current_figure\"\"\"\n",
         Block.mk "code" 2 3 "plt.plot(x)\n"] "plot_demo.py"
        (fun n => "plot_demo_" ++ toString n ++ ".png")
        "PLOT2RST.current_figure" = .ok (figs, rst) ∧
      figs.map (fun r => r.num) =
        List.range' 1 (marked_count "PLOT2RST.current_figure"
          [Block.mk "text" 1 2 "\"\"\"PLOT2RST.current_figure\"\"\"\n",
           Block.mk "code" 2 3 "plt.plot(x)\n"]) ∧
      figs.map (fun r => r.name) =
        (List.range' 1 (marked_count "PLOT2RST.current_figure"
          [Block.mk "text" 1 2 "\"\"\"PLOT2RST.current_figure\"\"\"\n",
           Block.mk "code" 2 3 "plt.plot(x)\n"])).map
          (fun n => "plot_demo_" ++ toString n ++ ".png")) ∧
    (save_all_figures [7, 2]
      (fun n => "plot_demo_" ++ toString n ++ ".png")).map
        (fun r => r.num) = [7, 2] :=
  ⟨(c3_amended (fun (_ : String) (g : Unit) => Except.ok g) ()
      [Block.mk "text" 1 2 "\"\"\"PLOT2RST.current_figure\"\"\"\n",
       Block.mk "code" 2 3 "plt.plot(x)\n"] "plot_demo.py"
      (fun n => "plot_demo_" ++ toString n ++ ".png")
      "PLOT2RST.current_figure" (by decide)
      (fun c g => ⟨g, rfl⟩)).1,
   (c3_amended (fun (_ : String) (g : Unit) => Except.ok g) ()
      [Block.mk "text" 1 2 "\"\"\"PLOT2RST.current_figure\"\"\"\n",
       Block.mk "code" 2 3 "plt.plot(x)\n"] "plot_demo.py"
      (fun n => "plot_demo_" ++ toString n ++ ".png")
      "PLOT2RST.current_figure" (by decide)
      (fun c g => ⟨g, rfl⟩)).2 [7, 2]⟩

/-- Witness for C7: the file `helper.py` from the spec's scenario, with a
concrete executor and block list. -/
theorem c7_non_plot_witness :
    process_blocks (fun (_ : String) (g : Unit) => Except.ok g) ()
        [Block.mk "code" 1 2 "x = 1\n"] "helper.py"
        (fun n => "helper_" ++ toString n ++ ".png")
        "PLOT2RST.current_figure" = .ok ([], "") ∧
    save_plot "helper.py" (fun n => "helper_" ++ toString n ++ ".png")
      false 0 0 (Except.ok ()) [1] ["helper_1.png"] = ([], []) :=
  c7_non_plot (fun (_ : String) (g : Unit) => Except.ok g) ()
    [Block.mk "code" 1 2 "x = 1\n"] "helper.py"
    (fun n => "helper_" ++ toString n ++ ".png") "PLOT2RST.current_figure"
    false 0 0 (Except.ok ()) [1] ["helper_1.png"] (by decide)

/-- Counterexample to Claim C2: in the inline-marker tutorial path the
`exec` of a Code block in `process_blocks` (line 443) has no surrounding
handler, so a runtime failure is NOT caught: it propagates out of
`process_blocks`, and through the per-example loop of `write_gallery`,
aborting the processing of every subsequent file in the batch.  The
concrete input is a `plot`-prefixed two-block file (marker-containing text,
then the code `1/0`) whose executor raises `ZeroDivisionError`; a second,
healthy file in the batch is never processed (the batch result is the
error, not a list of per-file results). -/
theorem c2_counterexample :
    process_blocks
      (fun (c : String) (g : Unit) =>
        if c = "1/0\n" then Except.error (PyError.execError
          "ZeroDivisionError: integer division or modulo by zero")
        else Except.ok g) ()
      [Block.mk "text" 1 2 "\"\"\"PLOT2RST.current_figure\"\"\"\n",
       Block.mk "code" 2 3 "1/0\n"] "plot_fail.py"
      (fun n => "plot_fail_" ++ toString n ++ ".png")
      "PLOT2RST.current_figure" =
      .error (PyError.execError
        "ZeroDivisionError: integer division or modulo by zero") ∧
    write_gallery_loop
      (fun bs : List Block => process_blocks
        (fun (c : String) (g : Unit) =>
          if c = "1/0\n" then Except.error (PyError.execError
            "ZeroDivisionError: integer division or modulo by zero")
          else Except.ok g) ()
        bs "plot_fail.py"
        (fun n => "plot_fail_" ++ toString n ++ ".png")
        "PLOT2RST.current_figure")
      [[Block.mk "text" 1 2 "\"\"\"PLOT2RST.current_figure\"\"\"\n",
        Block.mk "code" 2 3 "1/0\n"],
       [Block.mk "text" 1 2 "\"\"\"Healthy file\"\"\"\n",
        Block.mk "code" 2 3 "x = 1\n"]] =
      .error (PyError.execError
        "ZeroDivisionError: integer division or modulo by zero") := by
  exact ⟨rfl, rfl⟩

/-- Claim C2 as amended: no path of the program guarantees
catch-log-and-continue for the batch.  Only the gallery-entry sweep path
catches execution failures at all: `exec_source_in_dir` catches every
error and logs the offending file name and the full diagnostic, and
`save_plot` returns normally (the page text is still assembled with the
figures swept from the registry).  But when the failed run leaves no open
figures, the swept figure list is empty and the unconditional
`figure_list[0]` at line 323 of `rst_file_from_example` raises an
uncaught `IndexError`, aborting that file and the whole batch anyway.
And in the inline-marker tutorial path, an error raised while executing a
Code block propagates out of `process_blocks` uncaught (line 443 has no
handler) and aborts the current file and all subsequent files of the
batch. -/
theorem c2_amended {G α : Type} (run : String → G → Except PyError G)
    (g0 : G) (plot_tag : String) (src_name short_filename : String)
    (e : PyError) (image_fmt : Nat → String) (fig1_exists : Bool)
    (fig_mtime src_mtime : Int) (rst_exists : Bool) (registry : List Nat)
    (glob_names : List String) (source_lines : List String)
    (spans : List (Nat × Nat)) (b : Block) (bs : List Block) (ftb : Block)
    (ftbs : List Block)
    (process1 : α → Except PyError PageResult) (f0 : α)
    (files_rest : List α)
    (hplot : startswith src_name "plot" = true)
    (hstale : save_plot_needs_replot fig1_exists fig_mtime src_mtime = true)
    (hsplit : split_code_and_text source_lines spans
      (source_lines.length + 1) = some (b :: bs))
    (hnoshe : startswith b.content "#!" = false)
    (hnomark : ((b :: bs).any (fun blk => pyIn plot_tag blk.content)) =
      false)
    (htext : (b :: bs).filter (fun blk => blk.label == "text") =
      ftb :: ftbs)
    (hrst : rst_exists = false)
    (hfail : process1 f0 = .error e) :
    exec_source_in_dir src_name (.error e) =
      [underscores80, src_name ++ " is not compiling:", traceback_text e,
        underscores80] ∧
    save_plot src_name image_fmt fig1_exists fig_mtime src_mtime
      (.error e) registry glob_names =
      ((save_all_figures registry image_fmt).map (fun r => r.name),
        ("plotting " ++ src_name) ::
          [underscores80, src_name ++ " is not compiling:",
            traceback_text e, underscores80]) ∧
    rst_file_from_example run g0 plot_tag image_fmt src_name
      short_filename fig1_exists fig_mtime src_mtime rst_exists
      (.error e) [] glob_names source_lines spans =
      .error .indexError ∧
    write_gallery_loop process1 (f0 :: files_rest) = .error e := by
  have hpc : plots_are_current fig1_exists fig_mtime src_mtime = false := by
    show (!(save_plot_needs_replot fig1_exists fig_mtime src_mtime)) = false
    rw [hstale]
    rfl
  refine ⟨rfl, ?_, ?_, ?_⟩
  · rw [save_plot, hplot]
    simp only [Bool.not_true, Bool.false_eq_true, if_false]
    rw [if_pos hstale]
    rfl
  · rw [rst_file_from_example, hpc, hrst]
    simp only [Bool.and_false, Bool.false_eq_true, if_false]
    rw [hsplit]
    simp only [hnoshe, Bool.false_eq_true, if_false]
    rw [page_from_blocks, hnomark]
    simp only [Bool.false_eq_true, if_false]
    rw [htext]
    rw [save_plot, hplot]
    simp only [Bool.not_true, Bool.false_eq_true, if_false]
    rw [if_pos hstale]
    rfl
  · rw [write_gallery_loop, hfail]

/-- Witness for C2's amended theorem at concrete inputs: the `plot`-prefixed
file `"""Doc"""\n1/0\n` (a text block with no marker, then failing code),
stale figures, a failing whole-file execution that leaves the figure
registry empty, and a one-file batch whose processing fails.  The caught
gallery-path failure is logged, but the empty figure list then turns into
an uncaught `IndexError` for the file. -/
theorem c2_amended_witness :
    exec_source_in_dir "plot_fail.py"
      (.error (PyError.execError
        "ZeroDivisionError: integer division or modulo by zero")) =
      [underscores80, "plot_fail.py" ++ " is not compiling:",
        traceback_text (PyError.execError
          "ZeroDivisionError: integer division or modulo by zero"),
        underscores80] ∧
    save_plot "plot_fail.py" (fun n => toString n) false 0 0
      (.error (PyError.execError
        "ZeroDivisionError: integer division or modulo by zero")) [3] [] =
      ((save_all_figures [3] (fun n => toString n)).map (fun r => r.name),
        ("plotting " ++ "plot_fail.py") ::
          [underscores80, "plot_fail.py" ++ " is not compiling:",
            traceback_text (PyError.execError
              "ZeroDivisionError: integer division or modulo by zero"),
            underscores80]) ∧
    rst_file_from_example (fun (_ : String) (g : Unit) => Except.ok g) ()
      "PLOT2RST.current_figure" (fun n => toString n) "plot_fail.py"
      "plot_fail.py" false 0 0 false
      (.error (PyError.execError
        "ZeroDivisionError: integer division or modulo by zero")) [] []
      ["\"\"\"Doc\"\"\"\n", "1/0\n"] [(1, 1)] = .error .indexError ∧
    write_gallery_loop
      (fun _ : Unit => (.error (PyError.execError
        "ZeroDivisionError: integer division or modulo by zero") :
        Except PyError PageResult)) [()] =
      .error (PyError.execError
        "ZeroDivisionError: integer division or modulo by zero") :=
  c2_amended (fun (_ : String) (g : Unit) => Except.ok g) ()
    "PLOT2RST.current_figure" "plot_fail.py" "plot_fail.py"
    (PyError.execError
      "ZeroDivisionError: integer division or modulo by zero")
    (fun n => toString n) false 0 0 false [3] []
    ["\"\"\"Doc\"\"\"\n", "1/0\n"] [(1, 1)]
    (Block.mk "text" 1 2 "\"\"\"Doc\"\"\"\n")
    [Block.mk "code" 2 3 "1/0\n"]
    (Block.mk "text" 1 2 "\"\"\"Doc\"\"\"\n") []
    (fun _ : Unit => (.error (PyError.execError
      "ZeroDivisionError: integer division or modulo by zero") :
      Except PyError PageResult)) () []
    (by decide) (by decide) (by decide) (by decide) (by decide) (by decide)
    rfl rfl

/-- Counterexample to Claim C4: a file with zero top-level string literals
does produce the error condition (`get_block_edges` fails on the empty
boundary list), but nothing treats it as a per-file failure: no caller of
`split_code_and_text` has a handler, so the `IndexError` propagates
through `rst_file_from_example` and the `write_gallery` loop and aborts
the whole build.  Concretely, a two-file batch whose first file is
`x = 1\n` (no column-0 string literal) evaluates to the error — the
healthy second file is never processed and no per-file recovery occurs. -/
theorem c4_counterexample :
    get_block_edges [] 2 = none ∧
    write_gallery_loop
      (fun f : List String × List (Nat × Nat) =>
        rst_file_from_example (fun (_ : String) (g : Unit) => Except.ok g)
          () "PLOT2RST.current_figure" (fun n => toString n)
          "plot_a.py" "plot_a.py" false 0 0 false (Except.ok ()) [] []
          f.1 f.2)
      [(["x = 1\n"], []), (["\"\"\"doc\"\"\"\n"], [(1, 1)])] =
      .error .indexError := by
  exact ⟨rfl, rfl⟩

/-- Claim C4 as amended: a file with zero top-level string literals makes
the Segmenter fail (`get_block_edges` hits an empty boundary list — an
uncaught `IndexError`), and because no caller catches it, the error
propagates out of `rst_file_from_example` and aborts the whole batch, not
just the current file's page generation. -/
theorem c4_amended {G : Type} {α : Type}
    (run : String → G → Except PyError G) (g0 : G) (plot_tag : String)
    (image_fmt : Nat → String) (src_name short_filename : String)
    (fig1_exists : Bool) (fig_mtime src_mtime : Int) (rst_exists : Bool)
    (file_run_result : Except PyError Unit) (registry : List Nat)
    (glob_names : List String) (source_lines : List String)
    (process1 : α → Except PyError (Option PageResult)) (f0 : α)
    (files_rest : List α) (e : PyError)
    (hcur : (plots_are_current fig1_exists fig_mtime src_mtime &&
      rst_exists) = false)
    (hfail : process1 f0 = .error e) :
    get_block_edges [] (source_lines.length + 1) = none ∧
    rst_file_from_example run g0 plot_tag image_fmt src_name
      short_filename fig1_exists fig_mtime src_mtime rst_exists
      file_run_result registry glob_names source_lines [] =
      .error .indexError ∧
    write_gallery_loop process1 (f0 :: files_rest) = .error e := by
  refine ⟨rfl, ?_, ?_⟩
  · rw [rst_file_from_example, hcur]
    simp only [Bool.false_eq_true, if_false]
    rfl
  · rw [write_gallery_loop, hfail]

theorem contains_triple_eq (q c : Char) : ([q, q, q].contains c) = (c == q) := by
  by_cases h : c = q <;> simp [List.contains, h]

theorem contains_single_eq (q c : Char) : ([q].contains c) = (c == q) := by
  by_cases h : c = q <;> simp [List.contains, h]

theorem dropWhile_all_append (p : Char → Bool) :
    ∀ (xs ys : List Char), (∀ c ∈ xs, p c = true) →
      (xs ++ ys).dropWhile p = ys.dropWhile p := by
  intro xs
  induction xs with
  | nil => intro ys _; rfl
  | cons x xs ih =>
    intro ys hall
    rw [List.cons_append, List.dropWhile_cons,
      if_pos (hall x (by simp)), ih ys (fun c hc => hall c (by simp [hc]))]

theorem dropWhile_head_false (p : Char → Bool) (l : List Char)
    (hne : l ≠ []) (hhead : ∀ c, l.head? = some c → p c = false) :
    l.dropWhile p = l := by
  obtain ⟨c, cs, rfl⟩ := List.exists_cons_of_ne_nil hne
  rw [List.dropWhile_cons, if_neg]
  rw [hhead c rfl]
  exact Bool.false_ne_true

/-- `str.rstrip()` on a string of the form `A ++ ws` where `ws` is all
whitespace and `A` ends in a non-whitespace character removes exactly
`ws`. -/
theorem pyRstrip_concat (A ws : List Char)
    (hws : ∀ c ∈ ws, pyIsSpace c = true) (hne : A ≠ [])
    (hlast : ∀ c, A.getLast? = some c → pyIsSpace c = false) :
    pyRstrip (A ++ ws) = A := by
  rw [pyRstrip, List.reverse_append]
  rw [dropWhile_all_append pyIsSpace ws.reverse A.reverse
    (fun c hc => hws c (List.mem_reverse.mp hc))]
  rw [dropWhile_head_false pyIsSpace A.reverse
    (by simpa using hne)
    (fun c hc => hlast c (by rwa [List.head?_reverse] at hc))]
  exact List.reverse_reverse A

/-- `str.strip(quotes)` with a quote set `{q}` (given as `[q]` or
`[q, q, q]`, which denote the same character set) on `qs ++ body ++ qs`
removes exactly the delimiters when the body neither begins nor ends with
the delimiter character. -/
theorem pyStripChars_delim (q : Char) (body : List Char) (chars : List Char)
    (hchars : ∀ c, chars.contains c = (c == q))
    (qs : List Char) (hqs : ∀ c ∈ qs, c = q)
    (hne : body ≠ [])
    (hhead : ∀ c, body.head? = some c → (c == q) = false)
    (hlast : ∀ c, body.getLast? = some c → (c == q) = false) :
    pyStripChars chars (qs ++ (body ++ qs)) = body := by
  rw [pyStripChars]
  have hdrop1 : (qs ++ (body ++ qs)).dropWhile
      (fun c => chars.contains c) = body ++ qs := by
    rw [dropWhile_all_append _ qs (body ++ qs)
      (fun c hc => by rw [hchars c, hqs c hc]; exact beq_self_eq_true q)]
    exact dropWhile_head_false _ (body ++ qs)
      (by simp [hne])
      (fun c hc => by
        obtain ⟨b0, bs, rfl⟩ := List.exists_cons_of_ne_nil hne
        simp only [List.cons_append, List.head?_cons,
          Option.some.injEq] at hc
        rw [hchars c, ← hc]
        exact hhead b0 rfl)
  rw [hdrop1, List.reverse_append]
  rw [dropWhile_all_append _ qs.reverse body.reverse
    (fun c hc => by
      rw [hchars c, hqs c (List.mem_reverse.mp hc)]
      exact beq_self_eq_true q)]
  rw [dropWhile_head_false _ body.reverse (by simpa using hne)
    (fun c hc => by
      rw [hchars c]
      exact hlast c (by rwa [List.head?_reverse] at hc))]
  exact List.reverse_reverse body

/-- Counterexample to Claim C8: when the Text block content has no
trailing whitespace, `docstr2rst` does not strip the delimiters.  The
index `len(rstripped) - len(docstr)` is then 0, and Python's `docstr[0:]`
is the whole string, so the entire original content — enclosing quotes
included — is appended after the stripped text: `'"""doc"""'` renders as
`'doc"""doc"""'`, not `'doc'`. -/
theorem c8_counterexample :
    docstr2rst "\"\"\"doc\"\"\"" = "doc\"\"\"doc\"\"\"" ∧
    docstr2rst "\"\"\"doc\"\"\"" ≠ "doc" := by
  exact ⟨rfl, by decide⟩

/-- Claim C8 as amended: for a Text block content of the well-formed shape
`delimiter ++ body ++ delimiter ++ ws` — where the delimiter is the 1- or
3-character form of a non-whitespace quote character `q` (the tripled form
is sensed exactly when the second character equals the first), the body
neither begins nor ends with `q`, and `ws` is a nonempty run of
whitespace — rendering strips the enclosing delimiters and preserves the
trailing whitespace exactly as in the source.  (When the content has no
trailing whitespace the delimiters survive; see the counterexample.) -/
theorem docstr2rst_concat (A ws : List Char)
    (hws : ∀ c ∈ ws, pyIsSpace c = true) (hwsne : ws ≠ [])
    (hAne : A ≠ [])
    (hAlast : ∀ c, A.getLast? = some c → pyIsSpace c = false) :
    docstr2rst ⟨A ++ ws⟩ =
      ⟨pyStripChars
        (if (A ++ ws).getD 1 ' ' == (A ++ ws).getD 0 ' '
         then (A ++ ws).take 3 else (A ++ ws).take 1) A ++ ws⟩ := by
  show (⟨pyStripChars
      (if (A ++ ws).getD 1 ' ' == (A ++ ws).getD 0 ' '
       then (A ++ ws).take 3 else (A ++ ws).take 1)
      (pyRstrip (A ++ ws)) ++
    pySliceFrom (A ++ ws)
      (((pyRstrip (A ++ ws)).length : Int) -
        ((A ++ ws).length : Int))⟩ : String) = _
  rw [pyRstrip_concat A ws hws hAne hAlast]
  have hidx : (A.length : Int) - ((A ++ ws).length : Int) =
      -(ws.length : Int) := by
    simp only [List.length_append]
    push_cast
    ring
  rw [hidx]
  have hslice : pySliceFrom (A ++ ws) (-(ws.length : Int)) = ws := by
    rw [pySliceFrom, if_pos]
    · have harg : (((A ++ ws).length : Int) + -(ws.length : Int)).toNat =
          A.length := by
        simp only [List.length_append]
        omega
      rw [harg]
      exact List.drop_left A ws
    · have : 0 < ws.length := List.length_pos.mpr hwsne
      omega
  rw [hslice]

/-- Claim C8 as amended: for a Text block content of the well-formed shape
`delimiter ++ body ++ delimiter ++ ws` — where the delimiter is the 1- or
3-character form of a non-whitespace quote character `q` (the tripled form
is sensed exactly when the second character equals the first), the body
neither begins nor ends with `q`, and `ws` is a nonempty run of
whitespace — rendering strips the enclosing delimiters and preserves the
trailing whitespace exactly as in the source.  (When the content has no
trailing whitespace the delimiters survive; see the counterexample.) -/
theorem c8_amended (q : Char) (body ws : List Char)
    (hq : pyIsSpace q = false)
    (hne : body ≠ [])
    (hhead : ∀ c, body.head? = some c → (c == q) = false)
    (hlast : ∀ c, body.getLast? = some c → (c == q) = false)
    (hws : ∀ c ∈ ws, pyIsSpace c = true) (hwsne : ws ≠ []) :
    docstr2rst ⟨([q, q, q] ++ body ++ [q, q, q]) ++ ws⟩ = ⟨body ++ ws⟩ ∧
    docstr2rst ⟨([q] ++ body ++ [q]) ++ ws⟩ = ⟨body ++ ws⟩ := by
  obtain ⟨b0, brest, rfl⟩ := List.exists_cons_of_ne_nil hne
  have hb0 : (b0 == q) = false := hhead b0 rfl
  constructor
  · -- tripled delimiter: sensed because the second character equals the
    -- first
    have hAne : ([q, q, q] ++ (b0 :: brest) ++ [q, q, q]) ≠ [] := by simp
    have hAlast : ∀ c,
        (([q, q, q] ++ (b0 :: brest) ++ [q, q, q]) : List Char).getLast? =
          some c → pyIsSpace c = false := by
      intro c hc
      rw [← List.head?_reverse] at hc
      simp only [List.reverse_append, List.reverse_cons, List.reverse_nil,
        List.nil_append, List.cons_append, List.head?_cons,
        Option.some.injEq] at hc
      rw [← hc]
      exact hq
    rw [docstr2rst_concat _ ws hws hwsne hAne hAlast]
    have hcons : ([q, q, q] ++ (b0 :: brest) ++ [q, q, q]) ++ ws =
        q :: q :: q :: ((b0 :: brest) ++ ([q, q, q] ++ ws)) := by
      simp
    rw [hcons]
    simp only [List.getD_cons_succ, List.getD_cons_zero, beq_self_eq_true,
      if_true, List.take_succ_cons, List.take_zero]
    rw [List.append_assoc]
    rw [pyStripChars_delim q (b0 :: brest) [q, q, q]
      (contains_triple_eq q) [q, q, q] (by intro c hc; simpa using hc)
      (by simp) hhead hlast]
  · -- single-character delimiter: sensed because the second character
    -- differs from the first
    have hAne : ([q] ++ (b0 :: brest) ++ [q]) ≠ [] := by simp
    have hAlast : ∀ c,
        (([q] ++ (b0 :: brest) ++ [q]) : List Char).getLast? = some c →
          pyIsSpace c = false := by
      intro c hc
      rw [← List.head?_reverse] at hc
      simp only [List.reverse_append, List.reverse_cons, List.reverse_nil,
        List.nil_append, List.cons_append, List.head?_cons,
        Option.some.injEq] at hc
      rw [← hc]
      exact hq
    rw [docstr2rst_concat _ ws hws hwsne hAne hAlast]
    have hcons : ([q] ++ (b0 :: brest) ++ [q]) ++ ws =
        q :: b0 :: (brest ++ ([q] ++ ws)) := by
      simp
    rw [hcons]
    simp only [List.getD_cons_succ, List.getD_cons_zero, hb0,
      Bool.false_eq_true, if_false, List.take_succ_cons, List.take_zero]
    rw [List.append_assoc]
    rw [pyStripChars_delim q (b0 :: brest) [q]
      (contains_single_eq q) [q] (by intro c hc; simpa using hc)
      (by simp) hhead hlast]

/-- Witness for C8's amended theorem at the concrete contents
`"""doc"""\n` and `"doc"\n`, both of which render to `doc\n`. -/
theorem c8_amended_witness :
    docstr2rst ⟨(['"', '"', '"'] ++ ['d', 'o', 'c'] ++ ['"', '"', '"']) ++
      ['\n']⟩ = ⟨['d', 'o', 'c'] ++ ['\n']⟩ ∧
    docstr2rst ⟨(['"'] ++ ['d', 'o', 'c'] ++ ['"']) ++ ['\n']⟩ =
      ⟨['d', 'o', 'c'] ++ ['\n']⟩ :=
  c8_amended '"' ['d', 'o', 'c'] ['\n'] (by decide) (by decide)
    (by intro c hc; simp at hc; subst hc; decide)
    (by intro c hc; simp at hc; subst hc; decide)
    (by intro c hc; simp at hc; subst hc; decide) (by decide)

/-- Witness for C4's amended theorem at concrete inputs: the one-line file
`x = 1\n` with no spans, stale figures, and a one-file failing batch. -/
theorem c4_amended_witness :
    get_block_edges [] (["x = 1\n"] : List String).length.succ = none ∧
    rst_file_from_example (fun (_ : String) (g : Unit) => Except.ok g) ()
      "PLOT2RST.current_figure" (fun n => toString n) "plot_a.py"
      "plot_a.py" false 0 0 false (Except.ok ()) [] [] ["x = 1\n"] [] =
      .error .indexError ∧
    write_gallery_loop
      (fun _ : Unit => (.error PyError.indexError :
        Except PyError (Option PageResult))) [()] =
      .error PyError.indexError :=
  c4_amended (fun (_ : String) (g : Unit) => Except.ok g) ()
    "PLOT2RST.current_figure" (fun n => toString n) "plot_a.py"
    "plot_a.py" false 0 0 false (Except.ok ()) [] [] ["x = 1\n"]
    (fun _ : Unit => (.error PyError.indexError :
      Except PyError (Option PageResult))) () [] PyError.indexError
    (by decide) rfl

/-- Claim C10: when the first block's content begins with `#!`, that block
is removed before anything else happens: the rest of
`rst_file_from_example` — the inline-marker presence decision, all
rendering (`page_from_blocks`), and the page write plus thumbnail block
(`finish_page`) — runs on the remaining blocks only, so the shebang
block's content (even if it contains the inline marker) contributes
neither to the marker decision nor to the generated page.  The conclusion
equates the whole per-file computation with the pipeline
`page_from_blocks` ∘ `finish_page` applied to the tail, for every marker
string and every downstream input. -/
theorem c10_shebang_filter {G : Type} (run : String → G → Except PyError G)
    (g0 : G) (plot_tag : String) (image_fmt : Nat → String)
    (src_name short_filename : String) (fig1_exists : Bool)
    (fig_mtime src_mtime : Int) (rst_exists : Bool)
    (file_run_result : Except PyError Unit) (registry : List Nat)
    (glob_names : List String) (source_lines : List String)
    (spans : List (Nat × Nat)) (b : Block) (bs : List Block)
    (hsplit : split_code_and_text source_lines spans
      (source_lines.length + 1) = some (b :: bs))
    (hshe : startswith b.content "#!" = true)
    (hcur : (plots_are_current fig1_exists fig_mtime src_mtime &&
      rst_exists) = false) :
    rst_file_from_example run g0 plot_tag image_fmt src_name
      short_filename fig1_exists fig_mtime src_mtime rst_exists
      file_run_result registry glob_names source_lines spans =
    (page_from_blocks run g0 plot_tag image_fmt src_name short_filename
      fig1_exists fig_mtime src_mtime file_run_result registry glob_names
      bs).bind finish_page := by
  rw [rst_file_from_example, hcur]
  simp only [Bool.false_eq_true, if_false]
  rw [hsplit]
  simp only [hshe, if_true]
  rcases hpb : page_from_blocks run g0 plot_tag image_fmt src_name
    short_filename fig1_exists fig_mtime src_mtime file_run_result
    registry glob_names bs with e | p
  · rfl
  · rfl

/-- Witness for C10: a two-line file whose shebang line even contains the
inline marker (`#! PLOT2RST.current_figure`); the per-file result equals
the pipeline applied to the remaining single text block, so the marker in
the shebang changes nothing. -/
theorem c10_shebang_filter_witness :
    rst_file_from_example (fun (_ : String) (g : Unit) => Except.ok g) ()
      "PLOT2RST.current_figure" (fun n => toString n) "plot_demo.py"
      "plot_demo.py" false 0 0 false (Except.ok ()) [] []
      ["#! PLOT2RST.current_figure\n", "\"\"\"Doc\"\"\"\n"] [(2, 2)] =
    (page_from_blocks (fun (_ : String) (g : Unit) => Except.ok g) ()
      "PLOT2RST.current_figure" (fun n => toString n) "plot_demo.py"
      "plot_demo.py" false 0 0 (Except.ok ()) [] []
      [Block.mk "text" 2 3 "\"\"\"Doc\"\"\"\n"]).bind finish_page :=
  c10_shebang_filter (fun (_ : String) (g : Unit) => Except.ok g) ()
    "PLOT2RST.current_figure" (fun n => toString n) "plot_demo.py"
    "plot_demo.py" false 0 0 false (Except.ok ()) [] []
    ["#! PLOT2RST.current_figure\n", "\"\"\"Doc\"\"\"\n"] [(2, 2)]
    (Block.mk "code" 1 2 "#! PLOT2RST.current_figure\n")
    [Block.mk "text" 2 3 "\"\"\"Doc\"\"\"\n"] (by decide) (by decide)
    (by decide)

end Plot2RST
